import Mathlib

/-!
Shallow embedding of the `betting` ink! contract
(`src/contracts/src/betting/lib.rs`).

Modelling conventions:
* `AccountId` and `Balance` are modelled as `Nat` (opaque equality-comparable
  token, resp. unsigned integer).
* The ambient environment (`env().caller()`, `env().transferred_value()`) is
  passed to each message as explicit `caller` / `value` arguments.
* The external chrono datetime parser is an external collaborator of the core;
  it is passed to `create_bet` as an abstract predicate `parse_ok : String → Bool`
  standing for `event_decided_by.parse::<DateTime<Utc>>().is_ok()`.
* Fallible messages return the (possibly unchanged) contract state together
  with an `Except Error _` mirroring the Rust `Result`.
* A Rust `unwrap()` on `None` is a panic; `submit_outcome` therefore returns
  `Option (Betting × Except Error Unit)`, where `none` marks a panicking call
  (which, in ink!, reverts all state changes).
-/

/-- Error enum of the contract (`enum Error`). -/
inductive Error where
  | NotFinalDecisionMaker
  | BetDoesNotExist
  | BettorDoesNotExist
  | NotDatetimeString
  | InssufficientAmountOfTokensSent
  | NotBettor2
  | CallerNotValidBettor
  | InvalidStateForCallingFunction
deriving DecidableEq, Repr

/-- Different states that a bet can be in (`enum BetState`). -/
inductive BetState where
  | Created
  | BetAcceptedByBettor2
  | BetRefusedByBettor2
  | EventConcluded
  | Bettor1Voted
  | Bettor2Voted
  | Bettor1Wins
  | Bettor2Wins
  | BettorsDrew
  | BettorsDisagree
deriving DecidableEq, Repr

/-- Different states that a bet's outcome can be in (`enum BetOutcome`). -/
inductive BetOutcome where
  | Draw
  | Bettor1Wins
  | Bettor2Wins
  | Undecideable
deriving DecidableEq, Repr

/-- Information regarding a particular bet (`struct Bet`). -/
structure Bet where
  amount_wagered : Nat
  bettor_1 : Option Nat
  bettor_2 : Option Nat
  criteria_for_winning : String
  event_decided_by : String
  outcome_claimed_by_bettor_1 : Option BetOutcome
  outcome_claimed_by_bettor_2 : Option BetOutcome
  reviewer : Option Nat
  outcome_claimed_by_reviewer : Option BetOutcome
  state : BetState
deriving DecidableEq, Repr

/-- Contract storage (`struct Betting`); the reviewer `Mapping<AccountId, ()>`
is modelled as the list of keys present. -/
structure Betting where
  bet_creation_fee : Nat
  reviewers : List Nat
  number_of_reviewers : Nat
  final_decision_maker : Nat
  latest_bet : Nat
  bets : List Bet
  salt : Nat
deriving DecidableEq, Repr

/-- Constructor `Betting::new`. -/
def Betting.new (final_decision_maker : Nat) (bet_creation_fee : Nat) : Betting :=
  { bet_creation_fee
    reviewers := []
    number_of_reviewers := 0
    final_decision_maker
    latest_bet := 0
    bets := []
    salt := 0 }

/-- In-place mutation of the bet at index `n` (`self.bets.get_mut(n)` followed
by field assignments); out-of-range indices leave the list unchanged. -/
def updateBet : List Bet → Nat → (Bet → Bet) → List Bet
  | [], _, _ => []
  | b :: bs, 0, f => f b :: bs
  | b :: bs, Nat.succ n, f => b :: updateBet bs n f

/-- Convenience: set only the `state` field of the bet at index `n`. -/
def setBetState (self : Betting) (n : Nat) (st : BetState) : Betting :=
  { self with bets := updateBet self.bets n (fun b => { b with state := st }) }

/-- Freshly created bet record as built inside `create_bet`. -/
def newBet (caller : Nat) (amount_to_wager : Nat) (bettor_2 : Option Nat)
    (criteria_for_winning event_decided_by : String) : Bet :=
  { amount_wagered := amount_to_wager
    bettor_1 := some caller
    bettor_2
    criteria_for_winning
    event_decided_by
    outcome_claimed_by_bettor_1 := none
    outcome_claimed_by_bettor_2 := none
    reviewer := none
    outcome_claimed_by_reviewer := none
    state := BetState.Created }

/-- Message `create_bet` (payable). `parse_ok` abstracts the external chrono
datetime parser (`parse_ok ev = false` models `ev.parse::<DateTime<Utc>>().is_err()`);
`caller` and `value` are the ambient caller and transferred value. -/
def create_bet (parse_ok : String → Bool) (caller value : Nat) (self : Betting)
    (amount_to_wager : Nat) (bettor_2 : Option Nat)
    (criteria_for_winning event_decided_by : String) :
    Betting × Except Error (Option Nat) :=
  if value < self.bet_creation_fee + amount_to_wager then
    (self, Except.error Error.InssufficientAmountOfTokensSent)
  else if parse_ok event_decided_by = false then
    (self, Except.error Error.NotDatetimeString)
  else
    ({ self with
        latest_bet := self.latest_bet + 1
        bets := self.bets ++
          [newBet caller amount_to_wager bettor_2 criteria_for_winning event_decided_by] },
      Except.ok (some self.latest_bet))

/-- Message `reject_bet` (payable; the attached `value` is never inspected). -/
def reject_bet (caller : Nat) (value : Nat) (self : Betting) (n : Nat) :
    Betting × Except Error Bool :=
  match self.bets[n]? with
  | some x =>
    match x.bettor_2 with
    | some bettor =>
      if bettor = caller then
        (setBetState self n BetState.BetRefusedByBettor2, Except.ok true)
      else
        (self, Except.error Error.NotBettor2)
    | none => (self, Except.error Error.NotBettor2)
  | none => (self, Except.error Error.BetDoesNotExist)

/-- Update applied by `accept_bet` when `bettor_2` was unset: the caller
becomes bettor 2 and the state becomes `BetAcceptedByBettor2`. -/
def acceptAssign (caller : Nat) (b : Bet) : Bet :=
  { b with state := BetState.BetAcceptedByBettor2, bettor_2 := some caller }

/-- Message `accept_bet` (payable). -/
def accept_bet (caller value : Nat) (self : Betting) (n : Nat) :
    Betting × Except Error Bool :=
  match self.bets[n]? with
  | some x =>
    if value < x.amount_wagered then
      (self, Except.error Error.InssufficientAmountOfTokensSent)
    else
      match x.bettor_2 with
      | some bettor =>
        if bettor = caller then
          (setBetState self n BetState.BetAcceptedByBettor2, Except.ok true)
        else
          (self, Except.error Error.NotBettor2)
      | none =>
        ({ self with bets := updateBet self.bets n (acceptAssign caller) },
          Except.ok true)
  | none => (self, Except.error Error.BetDoesNotExist)

/-- Decoding of the `winner` byte inside `submit_outcome`
(`match winner { 0 => Draw, 1 => Bettor1Wins, 2 => Bettor2Wins, _ => Undecideable }`). -/
def decode_winner : Nat → BetOutcome
  | 0 => BetOutcome.Draw
  | 1 => BetOutcome.Bettor1Wins
  | 2 => BetOutcome.Bettor2Wins
  | _ => BetOutcome.Undecideable

/-- Reconciliation match of `submit_outcome`: first component is bettor 1's
claim, second is bettor 2's claim. -/
def reconcile (c1 c2 : BetOutcome) : BetState :=
  match c1, c2 with
  | BetOutcome.Draw, BetOutcome.Draw => BetState.BettorsDrew
  | BetOutcome.Undecideable, BetOutcome.Undecideable => BetState.BettorsDrew
  | BetOutcome.Bettor1Wins, BetOutcome.Bettor1Wins => BetState.Bettor1Wins
  | BetOutcome.Bettor2Wins, BetOutcome.Bettor2Wins => BetState.Bettor2Wins
  | _, _ => BetState.BettorsDisagree

/-- Message `submit_outcome`. `none` models a panicking `unwrap()` on a `None`
field (`bet.bettor_1.unwrap()`, `bet.outcome_claimed_by_bettor_2.unwrap()`,
`bet.outcome_claimed_by_bettor_1.unwrap()`). -/
def submit_outcome (caller : Nat) (self : Betting) (n : Nat) (winner : Nat) :
    Option (Betting × Except Error Unit) :=
  match self.bets[n]? with
  | none => some (self, Except.error Error.BetDoesNotExist)
  | some bet =>
    match bet.bettor_1 with
    | none => none
    | some b1 =>
      if b1 = caller then
        if bet.state = BetState.Bettor2Voted then
          match bet.outcome_claimed_by_bettor_2 with
          | none => none
          | some c2 =>
            some (setBetState self n (reconcile (decode_winner winner) c2), Except.ok ())
        else if bet.state = BetState.EventConcluded then
          some (setBetState self n BetState.Bettor1Voted, Except.ok ())
        else
          some (self, Except.error Error.InvalidStateForCallingFunction)
      else
        match bet.bettor_2 with
        | some b2 =>
          if b2 = caller then
            if bet.state = BetState.Bettor1Voted then
              match bet.outcome_claimed_by_bettor_1 with
              | none => none
              | some c1 =>
                some (setBetState self n (reconcile c1 (decode_winner winner)), Except.ok ())
            else if bet.state = BetState.EventConcluded then
              some (setBetState self n BetState.Bettor2Voted, Except.ok ())
            else
              some (self, Except.error Error.InvalidStateForCallingFunction)
          else
            some (self, Except.error Error.CallerNotValidBettor)
        | none => some (self, Except.error Error.CallerNotValidBettor)

/-- Message `register_as_reviewer`: inserts the caller into the reviewer
mapping (key overwrite leaves the key set unchanged) and unconditionally
increments the counter. -/
def register_as_reviewer (caller : Nat) (self : Betting) :
    Betting × Except Unit Unit :=
  ({ self with
      reviewers :=
        if self.reviewers.contains caller then self.reviewers
        else caller :: self.reviewers
      number_of_reviewers := self.number_of_reviewers + 1 },
    Except.ok ())

/-- Message `is_registered_as_reviewer`. -/
def is_registered_as_reviewer (caller : Nat) (self : Betting) : Bool :=
  self.reviewers.contains caller

/-- Message `get_bet_state`. -/
def get_bet_state (self : Betting) (n : Nat) : Except Error BetState :=
  match self.bets[n]? with
  | some x => Except.ok x.state
  | none => Except.error Error.BetDoesNotExist

/-- Contract states reachable from the constructor by any sequence of calls to
the state-mutating messages (`get_pseudo_random` mutates only `salt`; a
`submit_outcome` step is taken only when the call does not panic — a panicking
call reverts every state change in ink!). -/
inductive Reachable (fdm fee : Nat) : Betting → Prop where
  | base : Reachable fdm fee (Betting.new fdm fee)
  | create (s : Betting) (p : String → Bool) (caller value amt : Nat)
      (b2 : Option Nat) (crit ev : String) :
      Reachable fdm fee s →
      Reachable fdm fee (create_bet p caller value s amt b2 crit ev).1
  | accept (s : Betting) (caller value n : Nat) :
      Reachable fdm fee s → Reachable fdm fee (accept_bet caller value s n).1
  | reject (s : Betting) (caller value n : Nat) :
      Reachable fdm fee s → Reachable fdm fee (reject_bet caller value s n).1
  | submit (s s' : Betting) (caller n winner : Nat) (r : Except Error Unit) :
      Reachable fdm fee s → submit_outcome caller s n winner = some (s', r) →
      Reachable fdm fee s'
  | register (s : Betting) (caller : Nat) :
      Reachable fdm fee s → Reachable fdm fee (register_as_reviewer caller s).1
  | pseudoRandom (s : Betting) :
      Reachable fdm fee s → Reachable fdm fee { s with salt := s.salt + 1 }

/-! ### Helper lemmas -/

/-- Membership in an updated bet list comes from an old element, possibly
through the update function. -/
lemma mem_updateBet {l : List Bet} {n : Nat} {f : Bet → Bet} {b : Bet}
    (h : b ∈ updateBet l n f) : b ∈ l ∨ ∃ a, a ∈ l ∧ b = f a := by
  induction l generalizing n with
  | nil => simp [updateBet] at h
  | cons a t ih =>
    cases n with
    | zero =>
      simp only [updateBet, List.mem_cons] at h
      rcases h with h | h
      · exact Or.inr ⟨a, List.mem_cons_self a t, h⟩
      · exact Or.inl (List.mem_cons_of_mem a h)
    | succ m =>
      simp only [updateBet, List.mem_cons] at h
      rcases h with h | h
      · exact Or.inl (h ▸ List.mem_cons_self a t)
      · rcases ih h with h | ⟨a', ha', hb⟩
        · exact Or.inl (List.mem_cons_of_mem a h)
        · exact Or.inr ⟨a', List.mem_cons_of_mem a ha', hb⟩

/-- Reconciliation never produces `EventConcluded`. -/
lemma reconcile_ne_eventConcluded (c1 c2 : BetOutcome) :
    reconcile c1 c2 ≠ BetState.EventConcluded := by
  cases c1 <;> cases c2 <;> decide

/-- Shape of `create_bet`: the state is unchanged or one bet is appended. -/
lemma create_bet_fst (p : String → Bool) (caller value : Nat) (s : Betting)
    (amt : Nat) (b2 : Option Nat) (crit ev : String) :
    (create_bet p caller value s amt b2 crit ev).1 = s ∨
    (create_bet p caller value s amt b2 crit ev).1
      = { s with latest_bet := s.latest_bet + 1
                 bets := s.bets ++ [newBet caller amt b2 crit ev] } := by
  unfold create_bet
  by_cases h1 : value < s.bet_creation_fee + amt
  · simp [h1]
  · by_cases h2 : p ev = false <;> simp [h1, h2]

/-- Shape of `reject_bet`: the state is unchanged or one bet is marked refused. -/
lemma reject_bet_fst (caller value : Nat) (s : Betting) (n : Nat) :
    (reject_bet caller value s n).1 = s ∨
    (reject_bet caller value s n).1 = setBetState s n BetState.BetRefusedByBettor2 := by
  rcases hb : s.bets[n]? with _ | bet
  · left; simp [reject_bet, hb]
  · rcases h2 : bet.bettor_2 with _ | b2
    · left; simp [reject_bet, hb, h2]
    · by_cases hc : b2 = caller
      · right; simp [reject_bet, hb, h2, hc]
      · left; simp [reject_bet, hb, h2, hc]

/-- Shape of `accept_bet`: the state is unchanged or one bet is marked accepted
(possibly also filling in `bettor_2`). -/
lemma accept_bet_fst (caller value : Nat) (s : Betting) (n : Nat) :
    (accept_bet caller value s n).1 = s ∨
    (accept_bet caller value s n).1 = setBetState s n BetState.BetAcceptedByBettor2 ∨
    (accept_bet caller value s n).1
      = { s with bets := updateBet s.bets n (acceptAssign caller) } := by
  rcases hb : s.bets[n]? with _ | bet
  · left; simp [accept_bet, hb]
  · by_cases h1 : value < bet.amount_wagered
    · left; simp [accept_bet, hb, h1]
    · rcases h2 : bet.bettor_2 with _ | b2
      · right; right; simp [accept_bet, hb, h1, h2]
      · by_cases hc : b2 = caller
        · right; left; simp [accept_bet, hb, h1, h2, hc]
        · left; simp [accept_bet, hb, h1, h2, hc]

/-- Case analysis on a `submit_outcome` call: it panics, fails leaving the
state unchanged with one of three errors, or succeeds setting a single bet's
state to something other than `EventConcluded`. -/
lemma submit_outcome_cases (caller : Nat) (s : Betting) (n winner : Nat) :
    submit_outcome caller s n winner = none ∨
    (∃ e, submit_outcome caller s n winner = some (s, Except.error e) ∧
      (e = Error.BetDoesNotExist ∨ e = Error.InvalidStateForCallingFunction ∨
        e = Error.CallerNotValidBettor)) ∨
    (∃ st, st ≠ BetState.EventConcluded ∧
      submit_outcome caller s n winner = some (setBetState s n st, Except.ok ())) := by
  rcases hb : s.bets[n]? with _ | bet
  · exact Or.inr (Or.inl ⟨Error.BetDoesNotExist, by simp [submit_outcome, hb], Or.inl rfl⟩)
  · rcases h1 : bet.bettor_1 with _ | b1
    · exact Or.inl (by simp [submit_outcome, hb, h1])
    · by_cases hc1 : b1 = caller
      · by_cases hs1 : bet.state = BetState.Bettor2Voted
        · rcases h2 : bet.outcome_claimed_by_bettor_2 with _ | c2
          · exact Or.inl (by simp [submit_outcome, hb, h1, hc1, hs1, h2])
          · exact Or.inr (Or.inr ⟨reconcile (decode_winner winner) c2,
              reconcile_ne_eventConcluded _ _,
              by simp [submit_outcome, hb, h1, hc1, hs1, h2]⟩)
        · by_cases hs2 : bet.state = BetState.EventConcluded
          · exact Or.inr (Or.inr ⟨BetState.Bettor1Voted, by decide,
              by simp [submit_outcome, hb, h1, hc1, hs1, hs2]⟩)
          · exact Or.inr (Or.inl ⟨Error.InvalidStateForCallingFunction,
              by simp [submit_outcome, hb, h1, hc1, hs1, hs2], by simp⟩)
      · rcases h2 : bet.bettor_2 with _ | b2
        · exact Or.inr (Or.inl ⟨Error.CallerNotValidBettor,
            by simp [submit_outcome, hb, h1, hc1, h2], by simp⟩)
        · by_cases hc2 : b2 = caller
          · by_cases hs1 : bet.state = BetState.Bettor1Voted
            · rcases h3 : bet.outcome_claimed_by_bettor_1 with _ | c1
              · exact Or.inl (by simp [submit_outcome, hb, h1, hc1, h2, hc2, hs1, h3])
              · exact Or.inr (Or.inr ⟨reconcile c1 (decode_winner winner),
                  reconcile_ne_eventConcluded _ _,
                  by simp [submit_outcome, hb, h1, hc1, h2, hc2, hs1, h3]⟩)
            · by_cases hs2 : bet.state = BetState.EventConcluded
              · exact Or.inr (Or.inr ⟨BetState.Bettor2Voted, by decide,
                  by simp [submit_outcome, hb, h1, hc1, h2, hc2, hs1, hs2]⟩)
              · exact Or.inr (Or.inl ⟨Error.InvalidStateForCallingFunction,
                  by simp [submit_outcome, hb, h1, hc1, h2, hc2, hs1, hs2], by simp⟩)
          · exact Or.inr (Or.inl ⟨Error.CallerNotValidBettor,
              by simp [submit_outcome, hb, h1, hc1, h2, hc2], by simp⟩)

/-- Core invariant: in every reachable contract state, every stored bet has a
state other than `EventConcluded` and a populated `bettor_1`. -/
lemma reachable_bets_invariant {fdm fee : Nat} {s : Betting}
    (h : Reachable fdm fee s) :
    ∀ b ∈ s.bets, b.state ≠ BetState.EventConcluded ∧ b.bettor_1.isSome = true := by
  induction h with
  | base => intro b hb; simp [Betting.new] at hb
  | create s p caller value amt b2 crit ev _ ih =>
    intro b hb
    rcases create_bet_fst p caller value s amt b2 crit ev with heq | heq <;>
      rw [heq] at hb
    · exact ih b hb
    · simp only [List.mem_append, List.mem_singleton] at hb
      rcases hb with hb | hb
      · exact ih b hb
      · subst hb; exact ⟨by simp [newBet], by simp [newBet]⟩
  | accept s caller value n _ ih =>
    intro b hb
    rcases accept_bet_fst caller value s n with heq | heq | heq <;> rw [heq] at hb
    · exact ih b hb
    · simp only [setBetState] at hb
      rcases mem_updateBet hb with hb | ⟨a, ha, rfl⟩
      · exact ih b hb
      · exact ⟨by simp, (ih a ha).2⟩
    · rcases mem_updateBet hb with hb | ⟨a, ha, rfl⟩
      · exact ih b hb
      · exact ⟨by simp [acceptAssign], (ih a ha).2⟩
  | reject s caller value n _ ih =>
    intro b hb
    rcases reject_bet_fst caller value s n with heq | heq <;> rw [heq] at hb
    · exact ih b hb
    · simp only [setBetState] at hb
      rcases mem_updateBet hb with hb | ⟨a, ha, rfl⟩
      · exact ih b hb
      · exact ⟨by simp, (ih a ha).2⟩
  | submit s s' caller n winner r _ hcall ih =>
    intro b hb
    rcases submit_outcome_cases caller s n winner with hc | ⟨e, hc, -⟩ | ⟨st, hst, hc⟩ <;>
      rw [hcall] at hc
    · simp at hc
    · simp only [Option.some.injEq, Prod.mk.injEq] at hc
      rw [hc.1] at hb
      exact ih b hb
    · simp only [Option.some.injEq, Prod.mk.injEq] at hc
      rw [hc.1] at hb
      simp only [setBetState] at hb
      rcases mem_updateBet hb with hb | ⟨a, ha, rfl⟩
      · exact ih b hb
      · exact ⟨by simpa using hst, (ih a ha).2⟩
  | register s caller _ ih =>
    intro b hb
    exact ih b hb
  | pseudoRandom s _ ih =>
    intro b hb
    exact ih b hb

/-! ### Concrete fixtures -/

/-- Bet awaiting votes (state `EventConcluded`), bettor 1 = account 0,
bettor 2 = account 1, no claim recorded yet (as after `create_bet`). -/
def betFixtureA : Bet :=
  { amount_wagered := 100
    bettor_1 := some 0
    bettor_2 := some 1
    criteria_for_winning := "red wins"
    event_decided_by := "2023-12-21T00:00:00Z"
    outcome_claimed_by_bettor_1 := none
    outcome_claimed_by_bettor_2 := none
    reviewer := none
    outcome_claimed_by_reviewer := none
    state := BetState.EventConcluded }

/-- Contract holding `betFixtureA` at index 0. -/
def contractFixtureA : Betting :=
  { bet_creation_fee := 10
    reviewers := []
    number_of_reviewers := 0
    final_decision_maker := 9
    latest_bet := 1
    bets := [betFixtureA]
    salt := 0 }

/-- Bet in state `Bettor1Voted` with no recorded claim, bettor 1 = account 3,
bettor 2 = account 4. -/
def betFixtureB : Bet :=
  { betFixtureA with bettor_1 := some 3, bettor_2 := some 4,
                     state := BetState.Bettor1Voted }

/-- Contract holding `betFixtureB` at index 0. -/
def contractFixtureB : Betting :=
  { contractFixtureA with bets := [betFixtureB] }

/-- C1: the claim fails on the code: a successful `submit_outcome` call writes
no claim field at all. Voting from `EventConcluded` as bettor 1 (account 0)
with winner code 1 returns `Ok` yet leaves both
`outcome_claimed_by_bettor_1` and `outcome_claimed_by_bettor_2` equal to
`None`; the second vote (bettor 2, account 1) then panics on
`outcome_claimed_by_bettor_2.unwrap()` instead of reconciling, so no call
ever reconciles into a terminal state. -/
theorem submit_outcome_never_records_claims :
    submit_outcome 0 contractFixtureA 0 1
      = some (setBetState contractFixtureA 0 BetState.Bettor1Voted, Except.ok ()) ∧
    (setBetState contractFixtureA 0 BetState.Bettor1Voted).bets.map
        Bet.outcome_claimed_by_bettor_1 = [none] ∧
    (setBetState contractFixtureA 0 BetState.Bettor1Voted).bets.map
        Bet.outcome_claimed_by_bettor_2 = [none] ∧
    submit_outcome 1 (setBetState contractFixtureA 0 BetState.Bettor1Voted) 0 1
      = none := by
  refine ⟨rfl, rfl, rfl, rfl⟩

/-- C2: the reconciliation match implements exactly the claimed rule on all
16 outcome pairs — but in the live code no bet ever carries a recorded claim,
so the second vote panics on `unwrap()` of the missing claim instead of
reconciling: on `contractFixtureB` (bettor 1 = account 3 already voted, claim
field still `None`), bettor 2 (account 4) submitting any code crashes. -/
theorem reconcile_rule_all_sixteen_pairs :
    reconcile BetOutcome.Draw BetOutcome.Draw = BetState.BettorsDrew ∧
    reconcile BetOutcome.Draw BetOutcome.Bettor1Wins = BetState.BettorsDisagree ∧
    reconcile BetOutcome.Draw BetOutcome.Bettor2Wins = BetState.BettorsDisagree ∧
    reconcile BetOutcome.Draw BetOutcome.Undecideable = BetState.BettorsDisagree ∧
    reconcile BetOutcome.Bettor1Wins BetOutcome.Draw = BetState.BettorsDisagree ∧
    reconcile BetOutcome.Bettor1Wins BetOutcome.Bettor1Wins = BetState.Bettor1Wins ∧
    reconcile BetOutcome.Bettor1Wins BetOutcome.Bettor2Wins = BetState.BettorsDisagree ∧
    reconcile BetOutcome.Bettor1Wins BetOutcome.Undecideable = BetState.BettorsDisagree ∧
    reconcile BetOutcome.Bettor2Wins BetOutcome.Draw = BetState.BettorsDisagree ∧
    reconcile BetOutcome.Bettor2Wins BetOutcome.Bettor1Wins = BetState.BettorsDisagree ∧
    reconcile BetOutcome.Bettor2Wins BetOutcome.Bettor2Wins = BetState.Bettor2Wins ∧
    reconcile BetOutcome.Bettor2Wins BetOutcome.Undecideable = BetState.BettorsDisagree ∧
    reconcile BetOutcome.Undecideable BetOutcome.Draw = BetState.BettorsDisagree ∧
    reconcile BetOutcome.Undecideable BetOutcome.Bettor1Wins = BetState.BettorsDisagree ∧
    reconcile BetOutcome.Undecideable BetOutcome.Bettor2Wins = BetState.BettorsDisagree ∧
    reconcile BetOutcome.Undecideable BetOutcome.Undecideable = BetState.BettorsDrew ∧
    submit_outcome 4 contractFixtureB 0 0 = none ∧
    submit_outcome 4 contractFixtureB 0 1 = none ∧
    submit_outcome 4 contractFixtureB 0 2 = none ∧
    submit_outcome 4 contractFixtureB 0 3 = none := by
  refine ⟨rfl, rfl, rfl, rfl, rfl, rfl, rfl, rfl, rfl, rfl,
    rfl, rfl, rfl, rfl, rfl, rfl, rfl, rfl, rfl, rfl⟩

/-- C3: no operation of the contract ever sets a bet's state to
`EventConcluded`: in every contract state reachable from the constructor by
any sequence of message calls, no stored bet has state `EventConcluded`. -/
theorem no_stored_bet_reaches_event_concluded (fdm fee : Nat) (s : Betting)
    (h : Reachable fdm fee s) :
    ∀ b ∈ s.bets, b.state ≠ BetState.EventConcluded :=
  fun b hb => (reachable_bets_invariant h b hb).1

/-- Concrete reachable state used as a witness: one bet created on a fresh
contract (final decision maker 9, creation fee 3). -/
def reachableFixtureA : Betting :=
  (create_bet (fun _ => true) 5 10 (Betting.new 9 3) 2 (some 6) "crit"
    "2023-12-21T00:00:00Z").1

theorem no_stored_bet_reaches_event_concluded_witness :
    (reachableFixtureA.bets.all fun b => b.state != BetState.EventConcluded) = true := by
  have h := no_stored_bet_reaches_event_concluded 9 3 reachableFixtureA
    (Reachable.create (Betting.new 9 3) (fun _ => true) 5 10 2 (some 6) "crit"
      "2023-12-21T00:00:00Z" Reachable.base)
  simp only [List.all_eq_true, bne_iff_ne]
  exact h

/-- C10: every bet ever stored has `bettor_1` populated (set at creation and
never cleared), so the unconditional `bettor_1.unwrap()` inside
`submit_outcome` cannot hit `None` in any reachable contract state. -/
theorem bettor_1_always_set (fdm fee : Nat) (s : Betting)
    (h : Reachable fdm fee s) :
    ∀ b ∈ s.bets, b.bettor_1.isSome = true :=
  fun b hb => (reachable_bets_invariant h b hb).2

/-- Concrete reachable state used as a witness: a bet created with open
counterparty and then accepted by account 7. -/
def reachableFixtureB : Betting :=
  (accept_bet 7 4
    (create_bet (fun _ => true) 5 9 (Betting.new 8 1) 4 none "k"
      "2024-01-01T00:00:00Z").1 0).1

theorem bettor_1_always_set_witness :
    (reachableFixtureB.bets.all fun b => b.bettor_1.isSome) = true := by
  have h := bettor_1_always_set 8 1 reachableFixtureB
    (Reachable.accept _ 7 4 0
      (Reachable.create (Betting.new 8 1) (fun _ => true) 5 9 4 none "k"
        "2024-01-01T00:00:00Z" Reachable.base))
  simp only [List.all_eq_true]
  exact h

/-- C4: `create_bet` is atomic. If the attached value is below
`bet_creation_fee + amount_to_wager` it fails with the insufficient-funds
error and returns the ledger unchanged; in general it either fails (with the
insufficient-funds or invalid-datetime error) changing nothing, or succeeds
appending exactly one bet and bumping `latest_bet` by one. -/
theorem create_bet_atomic (p : String → Bool) (caller value : Nat) (s : Betting)
    (amt : Nat) (b2 : Option Nat) (crit ev : String) :
    (value < s.bet_creation_fee + amt →
      create_bet p caller value s amt b2 crit ev
        = (s, Except.error Error.InssufficientAmountOfTokensSent)) ∧
    (∀ s' r, create_bet p caller value s amt b2 crit ev = (s', r) →
      (s' = s ∧ (r = Except.error Error.InssufficientAmountOfTokensSent ∨
                 r = Except.error Error.NotDatetimeString)) ∨
      (r = Except.ok (some s.latest_bet) ∧
        s' = { s with latest_bet := s.latest_bet + 1
                      bets := s.bets ++ [newBet caller amt b2 crit ev] })) := by
  constructor
  · intro h
    simp [create_bet, h]
  · intro s' r h
    unfold create_bet at h
    by_cases h1 : value < s.bet_creation_fee + amt
    · rw [if_pos h1] at h
      rw [Prod.mk.injEq] at h
      exact Or.inl ⟨h.1.symm, Or.inl h.2.symm⟩
    · rw [if_neg h1] at h
      by_cases h2 : p ev = false
      · rw [if_pos h2, Prod.mk.injEq] at h
        exact Or.inl ⟨h.1.symm, Or.inr h.2.symm⟩
      · rw [if_neg h2, Prod.mk.injEq] at h
        exact Or.inr ⟨h.2.symm, h.1.symm⟩

theorem create_bet_atomic_witness :
    create_bet (fun _ => true) 7 3 (Betting.new 0 5) 0 none "c" "d"
      = (Betting.new 0 5, Except.error Error.InssufficientAmountOfTokensSent) :=
  (create_bet_atomic (fun _ => true) 7 3 (Betting.new 0 5) 0 none "c" "d").1
    (by decide)

/-- Bet in state `Created` with pre-assigned counterparty: stake 100,
bettor 1 = account 0, bettor 2 = account 1. -/
def betFixtureC : Bet :=
  { betFixtureA with state := BetState.Created }

/-- Contract holding `betFixtureC` at index 0. -/
def contractFixtureC : Betting :=
  { contractFixtureA with bets := [betFixtureC] }

/-- C5 counterexample: with `bettor_2` pre-assigned to account 1, account 2
calling `accept_bet` with zero attached value does NOT fail with the
not-authorized error `NotBettor2`: the funds check runs first and the call
fails with `InssufficientAmountOfTokensSent` instead, refuting "fails with
NotBettor2 regardless of the funds attached". -/
theorem accept_bet_funds_error_preempts_identity_error :
    accept_bet 2 0 contractFixtureC 0
      = (contractFixtureC, Except.error Error.InssufficientAmountOfTokensSent) ∧
    Error.InssufficientAmountOfTokensSent ≠ Error.NotBettor2 :=
  ⟨rfl, by decide⟩

/-- C5 (amended): with `bettor_2` pre-assigned to account B, a caller other
than B always fails: `accept_bet` fails with `NotBettor2` when the attached
funds cover the stake and with `InssufficientAmountOfTokensSent` when they do
not, and `reject_bet` fails with `NotBettor2` regardless of funds; B itself
succeeds (acceptance needs sufficient funds, rejection is unconditional). -/
theorem counterparty_exclusivity (s : Betting) (n : Nat) (bet : Bet)
    (B caller value v2 : Nat)
    (hbet : s.bets[n]? = some bet) (hB : bet.bettor_2 = some B) :
    (caller ≠ B → bet.amount_wagered ≤ value →
      accept_bet caller value s n = (s, Except.error Error.NotBettor2)) ∧
    (caller ≠ B → value < bet.amount_wagered →
      accept_bet caller value s n
        = (s, Except.error Error.InssufficientAmountOfTokensSent)) ∧
    (caller ≠ B → reject_bet caller v2 s n = (s, Except.error Error.NotBettor2)) ∧
    (bet.amount_wagered ≤ value →
      accept_bet B value s n
        = (setBetState s n BetState.BetAcceptedByBettor2, Except.ok true)) ∧
    reject_bet B v2 s n
      = (setBetState s n BetState.BetRefusedByBettor2, Except.ok true) := by
  refine ⟨?_, ?_, ?_, ?_, ?_⟩
  · intro hne hle
    have hne' : ¬ (B = caller) := fun hh => hne hh.symm
    simp [accept_bet, hbet, hB, Nat.not_lt.mpr hle, hne']
  · intro hne hlt
    simp [accept_bet, hbet, hlt]
  · intro hne
    have hne' : ¬ (B = caller) := fun hh => hne hh.symm
    simp [reject_bet, hbet, hB, hne']
  · intro hle
    simp [accept_bet, hbet, hB, Nat.not_lt.mpr hle]
  · simp [reject_bet, hbet, hB]

theorem counterparty_exclusivity_witness :
    accept_bet 2 100 contractFixtureC 0
      = (contractFixtureC, Except.error Error.NotBettor2) :=
  (counterparty_exclusivity contractFixtureC 0 betFixtureC 1 2 100 0 rfl rfl).1
    (by decide) (by decide)

/-- C6: `reject_bet` requires no attached funds: when `bettor_2` equals the
caller it succeeds (for any attached value, including zero) and sets the state
to `BetRefusedByBettor2`; it fails with `NotBettor2` when `bettor_2` is unset
or different, with `BetDoesNotExist` when the index is out of range, and its
result never depends on the attached value. -/
theorem reject_bet_needs_no_funds (caller value : Nat) (s : Betting) (n : Nat) :
    (∀ bet, s.bets[n]? = some bet → bet.bettor_2 = some caller →
      reject_bet caller value s n
        = (setBetState s n BetState.BetRefusedByBettor2, Except.ok true)) ∧
    (∀ bet, s.bets[n]? = some bet → bet.bettor_2 = none →
      reject_bet caller value s n = (s, Except.error Error.NotBettor2)) ∧
    (∀ bet b, s.bets[n]? = some bet → bet.bettor_2 = some b → b ≠ caller →
      reject_bet caller value s n = (s, Except.error Error.NotBettor2)) ∧
    (s.bets[n]? = none →
      reject_bet caller value s n = (s, Except.error Error.BetDoesNotExist)) ∧
    (∀ value2, reject_bet caller value s n = reject_bet caller value2 s n) := by
  refine ⟨?_, ?_, ?_, ?_, fun _ => rfl⟩
  · intro bet h1 h2
    simp [reject_bet, h1, h2]
  · intro bet h1 h2
    simp [reject_bet, h1, h2]
  · intro bet b h1 h2 hne
    simp [reject_bet, h1, h2, hne]
  · intro h1
    simp [reject_bet, h1]

theorem reject_bet_needs_no_funds_witness :
    reject_bet 1 0 contractFixtureC 0
      = (setBetState contractFixtureC 0 BetState.BetRefusedByBettor2, Except.ok true) :=
  (reject_bet_needs_no_funds 1 0 contractFixtureC 0).1 betFixtureC rfl rfl

/-- C7: the winner code is decoded totally and permissively — 0, 1, 2 map to
`Draw`, `Bettor1Wins`, `Bettor2Wins` and every other value to `Undecideable` —
and no winner value ever produces an invalid-input error: any error returned
by `submit_outcome` is one of `BetDoesNotExist`,
`InvalidStateForCallingFunction`, `CallerNotValidBettor`. -/
theorem decode_winner_total_and_permissive :
    decode_winner 0 = BetOutcome.Draw ∧
    decode_winner 1 = BetOutcome.Bettor1Wins ∧
    decode_winner 2 = BetOutcome.Bettor2Wins ∧
    (∀ w : Nat, w ≠ 0 → w ≠ 1 → w ≠ 2 → decode_winner w = BetOutcome.Undecideable) ∧
    (∀ caller s n w s' e,
      submit_outcome caller s n w = some (s', Except.error e) →
      e = Error.BetDoesNotExist ∨ e = Error.InvalidStateForCallingFunction ∨
        e = Error.CallerNotValidBettor) := by
  refine ⟨rfl, rfl, rfl, ?_, ?_⟩
  · intro w h0 h1 h2
    match w, h0, h1, h2 with
    | w + 3, _, _, _ => rfl
  · intro caller s n w s' e h
    rcases submit_outcome_cases caller s n w with hc | ⟨e2, hc, he2⟩ | ⟨st, -, hc⟩ <;>
      rw [h] at hc
    · simp at hc
    · simp only [Option.some.injEq, Prod.mk.injEq, Except.error.injEq] at hc
      exact hc.2 ▸ he2
    · simp at hc

theorem decode_winner_total_and_permissive_witness :
    decode_winner 77 = BetOutcome.Undecideable ∧
    (Error.BetDoesNotExist = Error.BetDoesNotExist ∨
      Error.BetDoesNotExist = Error.InvalidStateForCallingFunction ∨
      Error.BetDoesNotExist = Error.CallerNotValidBettor) :=
  ⟨decode_winner_total_and_permissive.2.2.2.1 77 (by decide) (by decide) (by decide),
   decode_winner_total_and_permissive.2.2.2.2 0 (Betting.new 0 0) 0 5
     (Betting.new 0 0) Error.BetDoesNotExist rfl⟩

/-- C8: neither `accept_bet` nor `reject_bet` checks any lifecycle-state
precondition: whatever the current state of the stored bet (the statement
places no hypothesis on `bet.state`), the designated counterparty with
sufficient funds — or anyone, when `bettor_2` is unset — succeeds in
accepting, overwriting the state to `BetAcceptedByBettor2`, and the assigned
`bettor_2` succeeds in rejecting, overwriting the state to
`BetRefusedByBettor2`. -/
theorem accept_reject_ignore_lifecycle_state (s : Betting) (n : Nat) (bet : Bet)
    (caller value v2 : Nat) (hbet : s.bets[n]? = some bet) :
    (bet.bettor_2 = some caller → bet.amount_wagered ≤ value →
      accept_bet caller value s n
        = (setBetState s n BetState.BetAcceptedByBettor2, Except.ok true)) ∧
    (bet.bettor_2 = none → bet.amount_wagered ≤ value →
      accept_bet caller value s n
        = ({ s with bets := updateBet s.bets n (acceptAssign caller) },
            Except.ok true)) ∧
    (bet.bettor_2 = some caller →
      reject_bet caller v2 s n
        = (setBetState s n BetState.BetRefusedByBettor2, Except.ok true)) := by
  refine ⟨?_, ?_, ?_⟩
  · intro h2 hle
    simp [accept_bet, hbet, h2, Nat.not_lt.mpr hle]
  · intro h2 hle
    simp [accept_bet, hbet, h2, Nat.not_lt.mpr hle]
  · intro h2
    simp [reject_bet, hbet, h2]

/-- Bet already resolved (terminal state `Bettor1Wins`) with bettor 2
pre-assigned to account 1; used to witness that even resolved bets can be
re-accepted and re-rejected. -/
def betFixtureD : Bet :=
  { betFixtureA with state := BetState.Bettor1Wins }

/-- Contract holding the resolved `betFixtureD` at index 0. -/
def contractFixtureD : Betting :=
  { contractFixtureA with bets := [betFixtureD] }

theorem accept_reject_ignore_lifecycle_state_witness :
    accept_bet 1 100 contractFixtureD 0
      = (setBetState contractFixtureD 0 BetState.BetAcceptedByBettor2,
          Except.ok true) :=
  (accept_reject_ignore_lifecycle_state contractFixtureD 0 betFixtureD 1 100 0
    rfl).1 rfl (by decide)

/-- C9: `register_as_reviewer` never fails, makes `is_registered_as_reviewer`
true for the caller, and increments `number_of_reviewers` by exactly one on
every call — including re-registration, which leaves the membership key set
unchanged while still bumping the counter, so the counter can exceed the
number of unique registered accounts. -/
theorem register_as_reviewer_counts_duplicates (caller : Nat) (s : Betting) :
    (register_as_reviewer caller s).2 = Except.ok () ∧
    is_registered_as_reviewer caller (register_as_reviewer caller s).1 = true ∧
    (register_as_reviewer caller s).1.number_of_reviewers
      = s.number_of_reviewers + 1 ∧
    (register_as_reviewer caller (register_as_reviewer caller s).1).1.reviewers
      = (register_as_reviewer caller s).1.reviewers ∧
    (register_as_reviewer caller
        (register_as_reviewer caller s).1).1.number_of_reviewers
      = s.number_of_reviewers + 2 := by
  unfold register_as_reviewer is_registered_as_reviewer
  by_cases h : s.reviewers.contains caller <;> simp [h]
  · have hm : caller ∈ s.reviewers := by simpa using h
    simp [hm]
  · have hm : caller ∉ s.reviewers := by simpa using h
    simp [hm]
